import Mathlib

/-!
Verification of the codec-name resolution logic of the repository's vendored
`encodings` package (`src/evenv/Lib/encodings/__pycache__/__init__.cpython-312.pyc`,
the compiled form of CPython's `Lib/encodings/__init__.py`).  The embedding
models Python strings as `List Char`, the module-level dictionaries `_cache`
and `_aliases` as association lists, the importable module universe as an
association list from dotted module names to module records, and the three
functions `normalize_encoding`, `search_function` and `_alias_mbcs` as pure
Lean functions (state passed and returned explicitly).
-/

namespace Encodings

/-- Python `str.isascii` on a single character: true iff the code point is
below U+0080. -/
def pyIsAscii (c : Char) : Bool :=
  decide (c.toNat < 0x80)

/-- Python's Unicode-aware `str.isalnum` on a single character.  The model is
exact on the ASCII block (decimal digits and Latin letters) and on the whole
Latin-1 supplement (ordinal indicators U+00AA/U+00BA, superscripts U+00B2,
U+00B3, U+00B9, the micro sign U+00B5, the vulgar fractions U+00BC..U+00BE and
the accented letters U+00C0..U+00D6, U+00D8..U+00F6, U+00F8..U+00FF); code
points above U+00FF are mapped to `false`.  Every theorem in this file either
evaluates the predicate inside the exactly-modelled ranges only, or (as in the
pure-ASCII-output invariant) is insensitive to its value outside them, because
`normalize_encoding` never copies a non-ASCII character to its output. -/
def pyIsAlnum (c : Char) : Bool :=
  let n := c.toNat
  decide ((n < 0x80 ∧
            ((0x30 ≤ n ∧ n ≤ 0x39) ∨ (0x41 ≤ n ∧ n ≤ 0x5A) ∨ (0x61 ≤ n ∧ n ≤ 0x7A))) ∨
          (0x80 ≤ n ∧ n ≤ 0xFF ∧
            (n = 0xAA ∨ n = 0xB2 ∨ n = 0xB3 ∨ n = 0xB5 ∨ n = 0xB9 ∨ n = 0xBA ∨
             n = 0xBC ∨ n = 0xBD ∨ n = 0xBE ∨
             (0xC0 ≤ n ∧ n ≤ 0xD6) ∨ (0xD8 ≤ n ∧ n ≤ 0xF6) ∨ (0xF8 ≤ n ∧ n ≤ 0xFF))))

/-- One iteration of the character loop of `normalize_encoding`: the state is
the accumulated `chars` list and the pending-punctuation flag `punct`.  This
mirrors the loop body

    if c.isalnum() or c == '.':
        if punct and chars:
            chars.append('_')
        if c.isascii():
            chars.append(c)
        punct = False
    else:
        punct = True
-/
def normStep (st : List Char × Bool) (c : Char) : List Char × Bool :=
  let chars := st.1
  let punct := st.2
  if pyIsAlnum c || c == '.' then
    let chars := if punct && !chars.isEmpty then chars ++ ['_'] else chars
    let chars := if pyIsAscii c then chars ++ [c] else chars
    (chars, false)
  else
    (chars, true)

/-- `normalize_encoding(encoding)` for a `str` argument: run the character
loop starting from `chars = []`, `punct = False` and join the accumulated
characters.  (The function's `bytes` branch, which first decodes the argument
as ASCII, is outside this model; all claims concern text arguments.) -/
def normalize_encoding (encoding : List Char) : List Char :=
  (encoding.foldl normStep (([] : List Char), false)).1

/-- A character that `normalize_encoding` copies to its output verbatim:
alphanumeric or the package-path separator, and ASCII (the `isascii` guard). -/
def wordChar (c : Char) : Bool :=
  (pyIsAlnum c || c == '.') && pyIsAscii c

/-- The characters the `normalize_encoding` loop will still emit, as a
function of the remaining input, the pending-punctuation flag and whether the
accumulator is already nonempty.  Used to reason about the loop. -/
def normTail (l : List Char) (punct ne : Bool) : List Char :=
  match l with
  | [] => []
  | c :: rest =>
    if pyIsAlnum c || c == '.' then
      (if punct && ne then ['_'] else []) ++
      (if pyIsAscii c then [c] else []) ++
      normTail rest false (ne || pyIsAscii c)
    else
      normTail rest true ne

/-- Recognizer for the separator discipline of normalized ASCII output.  The
flag records that the previous character was an underscore, so a word
character is now required (no doubled underscore, no trailing underscore). -/
def goodNW (needWord : Bool) : List Char → Bool
  | [] => !needWord
  | c :: rest =>
    if c == '_' then !needWord && goodNW true rest
    else wordChar c && goodNW false rest

/-- Output characters allowed by the pure-ASCII invariant: ASCII
alphanumerics, the package-path separator and the collapsing separator. -/
def asciiAlnumOrSep (c : Char) : Bool :=
  (pyIsAscii c && pyIsAlnum c) || c == '.' || c == '_'

example : normalize_encoding (("UTF-8").data) = ("UTF_8").data := by decide
example : normalize_encoding (("utf-8").data) = ("utf_8").data := by decide
example : normalize_encoding (("  -;#").data) = [] := by decide
example : normalize_encoding (['a', ' ', 'é']) = ['a', '_'] := by decide
example : normalize_encoding (("a.b-c").data) = ("a.b_c").data := by decide
example : normalize_encoding (("__x__").data) = ['x'] := by decide

/-- Whether a list does not start with the collapsing separator. -/
def headNotSep : List Char → Bool
  | [] => true
  | c :: _ => !(c == '_')

@[simp]
theorem isEmpty_append_cons {α : Type} (l : List α) (a : α) (t : List α) :
    (l ++ a :: t).isEmpty = false := by
  cases l <;> rfl

theorem word_ne_sep {c : Char} (h : (pyIsAlnum c || c == '.') = true) :
    (c == '_') = false := by
  by_cases hc : c = '_'
  · subst hc; exact absurd h (by decide)
  · simp [hc]

theorem sep_allowed : asciiAlnumOrSep '_' = true := by decide

theorem allowed_of_word {c : Char} (h1 : (pyIsAlnum c || c == '.') = true)
    (h2 : pyIsAscii c = true) : asciiAlnumOrSep c = true := by
  by_cases h : pyIsAlnum c = true
  · simp [asciiAlnumOrSep, h, h2]
  · have hdot : (c == '.') = true := by
      cases hx : pyIsAlnum c
      · rw [hx] at h1; simpa using h1
      · exact absurd hx h
    simp [asciiAlnumOrSep, hdot]

/-- The loop of `normalize_encoding`, run from an arbitrary accumulator,
appends exactly the characters described by `normTail`. -/
theorem foldl_normStep_eq (l : List Char) :
    ∀ (chars : List Char) (punct : Bool),
      (l.foldl normStep (chars, punct)).1 = chars ++ normTail l punct (!chars.isEmpty) := by
  induction l with
  | nil => intro chars punct; simp [normTail]
  | cons c rest ih =>
    intro chars punct
    rw [List.foldl_cons]
    by_cases hc : (pyIsAlnum c || c == '.') = true
    · by_cases hp : (punct && !chars.isEmpty) = true
      · obtain ⟨hp1, hp2⟩ : punct = true ∧ (!chars.isEmpty) = true := by
          simpa [Bool.and_eq_true] using hp
        by_cases ha : pyIsAscii c = true
        · have hstep : normStep (chars, punct) c = ((chars ++ ['_']) ++ [c], false) := by
            simp [normStep, hc, ha, hp]
          rw [hstep, ih, normTail]
          simp [hc, ha, hp1, hp2, List.append_assoc]
        · have hstep : normStep (chars, punct) c = (chars ++ ['_'], false) := by
            simp [normStep, hc, ha, hp]
          rw [hstep, ih, normTail]
          simp [hc, ha, hp1, hp2, List.append_assoc]
      · by_cases ha : pyIsAscii c = true
        · have hstep : normStep (chars, punct) c = (chars ++ [c], false) := by
            simp [normStep, hc, ha, hp]
          rw [hstep, ih, normTail]
          simp [hc, ha, hp, List.append_assoc]
        · have hstep : normStep (chars, punct) c = (chars, false) := by
            simp [normStep, hc, ha, hp]
          rw [hstep, ih, normTail]
          simp [hc, ha, hp]
    · have hstep : normStep (chars, punct) c = (chars, true) := by
        simp [normStep, hc]
      rw [hstep, ih, normTail]
      simp [hc]

theorem normalize_eq_normTail (l : List Char) :
    normalize_encoding l = normTail l false false := by
  simpa [normalize_encoding] using foldl_normStep_eq l [] false

theorem normTail_all_allowed (l : List Char) :
    ∀ (punct ne : Bool), (normTail l punct ne).all asciiAlnumOrSep = true := by
  induction l with
  | nil => intro p ne; rfl
  | cons c rest ih =>
    intro p ne
    by_cases hc : (pyIsAlnum c || c == '.') = true
    · by_cases ha : pyIsAscii c = true
      · by_cases hp : (p && ne) = true
        · simp [normTail, hc, ha, hp, List.all_append, ih, allowed_of_word hc ha, sep_allowed]
        · simp [normTail, hc, ha, hp, List.all_append, ih, allowed_of_word hc ha]
      · by_cases hp : (p && ne) = true
        · simp [normTail, hc, ha, hp, List.all_append, ih, sep_allowed]
        · simp [normTail, hc, ha, hp, List.all_append, ih]
    · simp [normTail, hc, ih]

/-- C10: every character of `normalize_encoding`'s output is an ASCII
alphanumeric, the package-path separator `.` or the separator `_`; in
particular no non-ASCII character is ever retained, so the normalized name is
pure ASCII. -/
theorem normalize_encoding_output_ascii (s : List Char) :
    (normalize_encoding s).all asciiAlnumOrSep = true := by
  rw [normalize_eq_normTail]
  exact normTail_all_allowed s false false

/-- Running the `normalize_encoding` loop over a well-separated string from a
nonempty accumulator copies the string verbatim (emitting the pending
separator first). -/
theorem foldl_normStep_good (o : List Char) :
    ∀ (needWord : Bool) (chars : List Char), chars ≠ [] → goodNW needWord o = true →
      (o.foldl normStep (chars, needWord)).1
        = chars ++ (if needWord then ['_'] else []) ++ o := by
  induction o with
  | nil =>
    intro nw chars hch hg
    cases nw
    · simp
    · exact absurd hg (by simp [goodNW])
  | cons c rest ih =>
    intro nw chars hch hg
    have hne : !chars.isEmpty = true := by
      cases chars
      · exact absurd rfl hch
      · rfl
    by_cases hc : c = '_'
    · subst hc
      obtain ⟨hnw, hrest⟩ : (!nw) = true ∧ goodNW true rest = true := by
        simpa [goodNW, Bool.and_eq_true] using hg
      have hnw' : nw = false := by simpa using hnw
      subst hnw'
      have hstep : normStep (chars, false) '_' = (chars, true) := by
        simp [normStep, (by decide : pyIsAlnum '_' = false), (by decide : ('_' == '.') = false)]
      rw [List.foldl_cons, hstep, ih true chars hch hrest]
      simp
    · obtain ⟨hword, hrest⟩ : wordChar c = true ∧ goodNW false rest = true := by
        simpa [goodNW, hc, Bool.and_eq_true] using hg
      obtain ⟨h1, h2⟩ : (pyIsAlnum c || c == '.') = true ∧ pyIsAscii c = true := by
        simpa [wordChar, Bool.and_eq_true] using hword
      cases nw
      · have hstep : normStep (chars, false) c = (chars ++ [c], false) := by
          simp [normStep, h1, h2]
        rw [List.foldl_cons, hstep,
          ih false (chars ++ [c]) (by simp) hrest]
        simp
      · have hstep : normStep (chars, true) c = ((chars ++ ['_']) ++ [c], false) := by
          simp [normStep, h1, h2, hch]
        rw [List.foldl_cons, hstep,
          ih false ((chars ++ ['_']) ++ [c]) (by simp) hrest]
        simp

theorem normTail_good (l : List Char) :
    ∀ (p ne : Bool), l.all pyIsAscii = true → goodNW false (normTail l p ne) = true := by
  induction l with
  | nil => intro p ne _; rfl
  | cons c rest ih =>
    intro p ne h
    obtain ⟨hca, hra⟩ : pyIsAscii c = true ∧ rest.all pyIsAscii = true := by
      simpa [List.all_cons, Bool.and_eq_true] using h
    by_cases hc : (pyIsAlnum c || c == '.') = true
    · have hword : wordChar c = true := by simp [wordChar, hc, hca]
      have hns : (c == '_') = false := word_ne_sep hc
      by_cases hp : (p && ne) = true
      · simp [normTail, hc, hca, hp, goodNW, hns, hword, ih false true hra]
      · simp [normTail, hc, hca, hp, goodNW, hns, hword, ih false true hra]
    · simp [normTail, hc, ih true ne hra]

theorem normTail_headNotSep (l : List Char) :
    ∀ (p : Bool), l.all pyIsAscii = true → headNotSep (normTail l p false) = true := by
  induction l with
  | nil => intro p _; rfl
  | cons c rest ih =>
    intro p h
    obtain ⟨hca, hra⟩ : pyIsAscii c = true ∧ rest.all pyIsAscii = true := by
      simpa [List.all_cons, Bool.and_eq_true] using h
    by_cases hc : (pyIsAlnum c || c == '.') = true
    · simp [normTail, hc, hca, headNotSep, word_ne_sep hc]
    · simp [normTail, hc, ih true hra]

/-- C8 (amended): `normalize_encoding` is idempotent on every pure-ASCII
input (the claim's unrestricted form fails on inputs containing non-ASCII
alphanumerics, see the counterexample). -/
theorem normalize_idem_ascii (s : List Char) (h : s.all pyIsAscii = true) :
    normalize_encoding (normalize_encoding s) = normalize_encoding s := by
  have hgood := normTail_good s false false h
  have hhead := normTail_headNotSep s false h
  rw [normalize_eq_normTail s]
  cases hoe : normTail s false false with
  | nil => rfl
  | cons w rest =>
    rw [hoe] at hgood hhead
    have hw : (w == '_') = false := by simpa [headNotSep] using hhead
    obtain ⟨hword, hrest⟩ : wordChar w = true ∧ goodNW false rest = true := by
      simpa [goodNW, hw, Bool.and_eq_true] using hgood
    obtain ⟨h1, h2⟩ : (pyIsAlnum w || w == '.') = true ∧ pyIsAscii w = true := by
      simpa [wordChar, Bool.and_eq_true] using hword
    have hstep : normStep (([] : List Char), false) w = ([w], false) := by
      simp [normStep, h1, h2]
    show (List.foldl normStep (([] : List Char), false) (w :: rest)).1 = w :: rest
    rw [List.foldl_cons, hstep, foldl_normStep_good rest false [w] (by simp) hrest]
    simp

/-- C8 counterexample: normalization is not idempotent; on `['a', ' ', 'é']`
(the last character is the non-ASCII alphanumeric U+00E9) the output `['a',
'_']` renormalizes to `['a']`. -/
theorem normalize_not_idempotent :
    normalize_encoding (normalize_encoding (['a', ' ', 'é'])) ≠
      normalize_encoding (['a', ' ', 'é']) := by
  decide

/-- Witness for C8 (amended): idempotence evaluated on the ASCII name
`"utf-8"`. -/
theorem normalize_idem_ascii_witness :
    (("utf-8").data.all pyIsAscii = true) ∧
      normalize_encoding (normalize_encoding (("utf-8").data)) =
        normalize_encoding (("utf-8").data) :=
  ⟨by decide, normalize_idem_ascii (("utf-8").data) (by decide)⟩

/-- C5 counterexample: `normalize_encoding` does not lower-case, so `"UTF-8"`
and `"utf_8"` normalize to different names (`"UTF_8"` versus `"utf_8"`). -/
theorem normalize_not_case_insensitive :
    normalize_encoding (("UTF-8").data) ≠ normalize_encoding (("utf_8").data) := by
  decide

/-- C5 (amended): normalization is punctuation-insensitive but
case-preserving: `"utf-8"` and `"utf_8"` normalize to the same name, while
`"UTF-8"` keeps its upper-case letters and normalizes to `"UTF_8"`. -/
theorem normalize_punct_insensitive_case_preserving :
    normalize_encoding (("utf-8").data) = normalize_encoding (("utf_8").data) ∧
      normalize_encoding (("UTF-8").data) = ("UTF_8").data ∧
      normalize_encoding (("utf_8").data) = ("utf_8").data := by
  decide

/-- C6 counterexample: on `"  -;#"` (no alphanumeric characters at all) the
result is the empty string, not a single separator token. -/
theorem normalize_sep_only_not_single_sep :
    ¬(normalize_encoding (("  -;#").data) ≠ []) := by
  decide

/-- C6 (amended): `normalize_encoding "  -;#"` yields the empty string —
leading separator runs are dropped entirely and no retained character ever
follows; a separator run directly before an alphanumeric still collapses into
nothing when it leads the string, as `"-;#a"` normalizing to `"a"` shows. -/
theorem normalize_sep_only_empty :
    normalize_encoding (("  -;#").data) = [] ∧
      normalize_encoding (("-;#a").data) = ['a'] := by
  decide

/-- A member of the tuple returned by a codec module's `getregentry`:
`pynone` models the Python `None` object, `callableObj i` an object for which
`callable(x)` is true (the payload distinguishes different callables), and
`strVal s` a string object (not callable and not `None`), e.g. the codec-name
slot of a seven-member tuple. -/
inductive Item where
  | pynone
  | callableObj (id : Nat)
  | strVal (s : List Char)
deriving DecidableEq

/-- Python `callable(x)` on a tuple member. -/
def Item.isCallable : Item → Bool
  | .callableObj _ => true
  | _ => false

/-- Python `x is None` on a tuple member. -/
def Item.isNone : Item → Bool
  | .pynone => true
  | _ => false

/-- The value produced by a module's `getregentry()`: either an object that
already is a `codecs.CodecInfo` instance (identified by a payload, as the
`isinstance(entry, codecs.CodecInfo)` branch skips all validation) or a plain
tuple of members, which `search_function` must validate. -/
inductive RegEntry where
  | codecInfo (id : Nat)
  | tuple (items : List Item)
deriving DecidableEq

/-- A resolved codec entry as stored in `_cache` and returned to the caller:
either the `codecs.CodecInfo` object the module returned directly, or the
`codecs.CodecInfo(*entry)` built from a validated and padded tuple. -/
inductive Entry where
  | info (id : Nat)
  | built (items : List Item)
deriving DecidableEq

/-- A loadable module of the `encodings` package: its `__name__` and
`__file__`, its `getregentry` attribute (`none` models the `AttributeError`
case, `some r` a zero-argument function returning `r`) and its optional
`getaliases` attribute. -/
structure Module where
  name : List Char
  file : List Char
  regentry : Option RegEntry
  aliasesDecl : Option (List (List Char))
deriving DecidableEq

/-- `d.get(k)` / `k in d` on a Python dict, modelled as first-match lookup in
an association list. -/
def dictGet {α : Type} : List (List Char × α) → List Char → Option α
  | [], _ => none
  | (k, v) :: rest, key => if k = key then some v else dictGet rest key

/-- `d[k] = v` on a Python dict: replace the binding if the key is present,
otherwise append it. -/
def dictSet {α : Type} : List (List Char × α) → List Char → α → List (List Char × α)
  | [], key, v => [(key, v)]
  | (k, w) :: rest, key, v =>
    if k = key then (key, v) :: rest else (k, w) :: dictSet rest key v

/-- Python's truthiness-based `x or y` on optional strings: `None` and the
empty string are falsy. -/
def pyOrStr : Option (List Char) → Option (List Char) → Option (List Char)
  | some s, b => if s = [] then b else some s
  | none, b => b

/-- The module-level mutable state of the `encodings` package: the `_cache`
dict (a stored value of `none` is the cached negative result, Python `None`)
and the `_aliases` dict. -/
structure CodecState where
  cache : List (List Char × Option Entry)
  aliases : List (List Char × List Char)
deriving DecidableEq

/-- The universe of importable modules: dotted module name to module.  A name
missing here makes `__import__` raise `ImportError`. -/
abbrev Env : Type := List (List Char × Module)

/-- What a call of `search_function` does: return a codec entry, return the
Python `None` (encoding unknown to this search function), raise
`CodecRegistryError(msg)`, or raise the `TypeError` that
`codecs.CodecInfo(*entry)` produces when handed more than seven positional
arguments (see `validateTuple`). -/
inductive Outcome where
  | entry (e : Entry)
  | unknown
  | registryError (msg : List Char)
  | typeError
deriving DecidableEq

def Outcome.isRegistryError : Outcome → Bool
  | .registryError _ => true
  | _ => false

/-- Whether the call raised an exception (`CodecRegistryError` or the
constructor `TypeError`) rather than returning a value. -/
def Outcome.raised : Outcome → Bool
  | .registryError _ => true
  | .typeError => true
  | _ => false

/-- The full observable effect of one `search_function` call: its outcome, the
updated module-level state, and — to make the caching claims statable — the
list of candidate names passed to `__import__`, in call order. -/
structure SearchResult where
  outcome : Outcome
  state : CodecState
  imports : List (List Char)
deriving DecidableEq

/-- The `aliased_encoding` value computed by `search_function`:
`_aliases.get(norm_encoding) or _aliases.get(norm_encoding.replace('.', '_'))`. -/
def aliasedEncodingFor (aliases : List (List Char × List Char))
    (norm_encoding : List Char) : Option (List Char) :=
  pyOrStr (dictGet aliases norm_encoding)
    (dictGet aliases (norm_encoding.map (fun c => if c == '.' then '_' else c)))

/-- The ordered candidate list `modnames` of `search_function`:
`[aliased_encoding, norm_encoding]` when the alias lookup found something
truthy, else `[norm_encoding]`. -/
def modnamesFor (aliases : List (List Char × List Char))
    (norm_encoding : List Char) : List (List Char) :=
  match aliasedEncodingFor aliases norm_encoding with
  | some aliased_encoding => [aliased_encoding, norm_encoding]
  | none => [norm_encoding]

/-- The dotted module name `'encodings.' + modname` passed to `__import__`. -/
def importKey (modname : List Char) : List Char :=
  ("encodings.").data ++ modname

/-- The `for modname in modnames` import loop: skip candidates that are empty
or contain a dot, call `__import__('encodings.' + modname)` treating a
missing module as the caught `ImportError`, and stop at the first module that
loads.  Returns the loaded module with its candidate name, and the list of
candidate names for which `__import__` was actually called. -/
def importLoop (env : Env) : List (List Char) → Option (Module × List Char) × List (List Char)
  | [] => (none, [])
  | modname :: rest =>
    if modname.isEmpty || modname.contains '.' then importLoop env rest
    else
      match dictGet env (importKey modname) with
      | none =>
        let r := importLoop env rest
        (r.1, modname :: r.2)
      | some mod => (some (mod, modname), [modname])

/-- `mod.__name__.split(".", 1)[1]`: everything after the first dot (codec
modules live at `encodings.<name>`, so a dot is always present there). -/
def splitAfterFirstDot : List Char → List Char
  | [] => []
  | c :: rest => if c = '.' then rest else splitAfterFirstDot rest

/-- The message `'module "%s" (%s) failed to register' % (mod.__name__,
mod.__file__)`. -/
def failToRegisterMsg (mod : Module) : List Char :=
  ("module \"").data ++ mod.name ++ ("\" (").data ++ mod.file ++
    (") failed to register").data

/-- The message `'incompatible codecs in module "%s" (%s)' % (mod.__name__,
mod.__file__)`. -/
def incompatibleMsg (mod : Module) : List Char :=
  ("incompatible codecs in module \"").data ++ mod.name ++ ("\" (").data ++
    mod.file ++ (")").data

/-- `entry[i]` on the tuple.  Positions 0..3 are only read once the length
check `4 <= len(entry) <= 7` has passed, positions 4..6 only under the
corresponding length guards, so the default is never observable. -/
def itemAt (items : List Item) (i : Nat) : Item :=
  items.getD i Item.pynone

/-- The callable-shape test of `search_function` on a tuple registry entry:

    not callable(entry[0]) or not callable(entry[1]) or
    (entry[2] is not None and not callable(entry[2])) or
    (entry[3] is not None and not callable(entry[3])) or
    (len(entry) > 4 and entry[4] is not None and not callable(entry[4])) or
    (len(entry) > 5 and entry[5] is not None and not callable(entry[5]))
-/
def badShape (items : List Item) : Bool :=
  !(itemAt items 0).isCallable || !(itemAt items 1).isCallable ||
  (!(itemAt items 2).isNone && !(itemAt items 2).isCallable) ||
  (!(itemAt items 3).isNone && !(itemAt items 3).isCallable) ||
  (decide (4 < items.length) && !(itemAt items 4).isNone && !(itemAt items 4).isCallable) ||
  (decide (5 < items.length) && !(itemAt items 5).isNone && !(itemAt items 5).isCallable)

/-- The padding step before `codecs.CodecInfo(*entry)`:

    if len(entry)<7 or entry[6] is None:
        entry += (None,)*(6-len(entry)) + (mod.__name__.split(".", 1)[1],)
-/
def paddedItems (mod : Module) (items : List Item) : List Item :=
  if items.length < 7 ∨ itemAt items 6 = Item.pynone then
    items ++ List.replicate (6 - items.length) Item.pynone ++
      [Item.strVal (splitAfterFirstDot mod.name)]
  else items

/-- The alias-registration loop run after a successful resolution:

    for alias in codecaliases:
        if alias not in _aliases:
            _aliases[alias] = modname
-/
def registerAliases (modname : List Char) :
    List (List Char × List Char) → List (List Char) → List (List Char × List Char)
  | aliases, [] => aliases
  | aliases, a :: rest =>
    registerAliases modname
      (if (dictGet aliases a).isSome then aliases else dictSet aliases a modname) rest

/-- The shared success tail of `search_function`: cache the entry under the
requested (raw) name, register the module's declared aliases without
overwriting existing ones, and return the entry. -/
def finishSuccess (st : CodecState) (encoding : List Char) (mod : Module)
    (modname : List Char) (e : Entry) (imports : List (List Char)) : SearchResult :=
  { outcome := Outcome.entry e,
    state :=
      { cache := dictSet st.cache encoding (some e),
        aliases :=
          match mod.aliasesDecl with
          | none => st.aliases
          | some als => registerAliases modname st.aliases als },
    imports := imports }

/-- The negative-result tail of `search_function` (`mod is None` after
the import loop and the `getregentry` fetch): `_cache[encoding] = None` and the
Python `None` is returned. -/
def cacheUnknown (st : CodecState) (encoding : List Char)
    (imports : List (List Char)) : SearchResult :=
  { outcome := Outcome.unknown,
    state := { st with cache := dictSet st.cache encoding none },
    imports := imports }

/-- Validation of a tuple registry entry (the `not isinstance(entry,
codecs.CodecInfo)` branch): the length must lie in 4..7 and the
callable-shape test must pass; the tuple is then padded and handed to
`codecs.CodecInfo(*entry)`.  That constructor accepts at most seven
positional arguments, so when the padding produced more than seven members —
which happens exactly for a 7-member tuple whose 7th member is `None`, since
`(None,)*(6-7)` is empty but the name is still appended — the construction
raises `TypeError` before anything is cached. -/
def validateTuple (st : CodecState) (encoding : List Char) (mod : Module)
    (modname : List Char) (items : List Item) (imports : List (List Char)) : SearchResult :=
  if ¬(4 ≤ items.length ∧ items.length ≤ 7) then
    { outcome := Outcome.registryError (failToRegisterMsg mod), state := st,
      imports := imports }
  else if badShape items then
    { outcome := Outcome.registryError (incompatibleMsg mod), state := st,
      imports := imports }
  else if 7 < (paddedItems mod items).length then
    { outcome := Outcome.typeError, state := st, imports := imports }
  else
    finishSuccess st encoding mod modname (Entry.built (paddedItems mod items)) imports

/-- The cache-miss path of `search_function`: normalize, alias-resolve, run
the import loop, fetch `getregentry` (an `AttributeError` resets `mod` to
`None`), on `mod is None` cache the negative result and return `None`,
otherwise obtain and validate the registry entry, cache it and register the
module's aliases. -/
def resolveMiss (env : Env) (st : CodecState) (encoding : List Char) : SearchResult :=
  let norm_encoding := normalize_encoding encoding
  match importLoop env (modnamesFor st.aliases norm_encoding) with
  | (none, imports) => cacheUnknown st encoding imports
  | (some (mod, modname), imports) =>
    match mod.regentry with
    | none => cacheUnknown st encoding imports
    | some (RegEntry.codecInfo i) =>
      finishSuccess st encoding mod modname (Entry.info i) imports
    | some (RegEntry.tuple items) =>
      validateTuple st encoding mod modname items imports

/-- `search_function(encoding)` over explicit state.  The cache lookup
`_cache.get(encoding, _unknown)` is keyed by the raw requested name; a present
entry (including a cached `None`) is returned immediately, otherwise the
cache-miss path runs. -/
def search_function (env : Env) (st : CodecState) (encoding : List Char) : SearchResult :=
  match dictGet st.cache encoding with
  | some entry =>
    { outcome :=
        match entry with
        | some e => Outcome.entry e
        | none => Outcome.unknown,
      state := st, imports := [] }
  | none => resolveMiss env st encoding

/-- `_alias_mbcs(encoding)`, the fallback search function registered on the
win32 platform.  `winapi = some acp` models a successful `import _winapi`
with `GetACP()` returning `acp`; `mbcsEntry = some e` models a successful
`import encodings.mbcs` whose `getregentry()` returns `e`; `none` in either
position models the swallowed `ImportError`.  The requested name is compared
against `ansi_code_page = "cp%s" % acp`; only on a match is the mbcs registry
entry returned. -/
def _alias_mbcs (winapi : Option Nat) (mbcsEntry : Option Entry)
    (encoding : List Char) : Option Entry :=
  match winapi with
  | none => none
  | some acp =>
    let ansi_code_page := ("cp").data ++ (toString acp).data
    if encoding = ansi_code_page then mbcsEntry else none

/-- The initial module state: empty cache (the alias table of the repository
is large and irrelevant to the claims, so test states carry only the bindings
they exercise). -/
def st0 : CodecState := { cache := [], aliases := [] }

/-- A codec module whose `getregentry` returns a ready `CodecInfo` object. -/
def utf8Mod : Module :=
  { name := ("encodings.utf_8").data, file := ("utf_8.py").data,
    regentry := some (RegEntry.codecInfo 1), aliasesDecl := none }

/-- A second, distinguishable codec module. -/
def u8Mod : Module :=
  { name := ("encodings.u8").data, file := ("u8.py").data,
    regentry := some (RegEntry.codecInfo 2), aliasesDecl := none }

/-- A module without a `getregentry` attribute. -/
def nogetMod : Module :=
  { name := ("encodings.foo").data, file := ("foo.py").data,
    regentry := none, aliasesDecl := none }

/-- A module whose registry entry is a four-member tuple of valid shape. -/
def fourMod : Module :=
  { name := ("encodings.four").data, file := ("four.py").data,
    regentry := some (RegEntry.tuple
      [Item.callableObj 1, Item.callableObj 2, Item.pynone, Item.pynone]),
    aliasesDecl := none }

/-- A module whose registry entry is a three-member tuple (too short). -/
def threeMod : Module :=
  { name := ("encodings.three").data, file := ("three.py").data,
    regentry := some (RegEntry.tuple
      [Item.callableObj 1, Item.callableObj 2, Item.pynone]),
    aliasesDecl := none }

/-- A module whose registry entry is a seven-member tuple of valid shape with
`None` in the seventh slot. -/
def sevenNoneMod : Module :=
  { name := ("encodings.seven").data, file := ("seven.py").data,
    regentry := some (RegEntry.tuple
      [Item.callableObj 1, Item.callableObj 2, Item.pynone, Item.pynone,
       Item.pynone, Item.pynone, Item.pynone]),
    aliasesDecl := none }

/-- A module whose registry entry has a non-callable first member. -/
def badMod : Module :=
  { name := ("encodings.bad").data, file := ("bad.py").data,
    regentry := some (RegEntry.tuple
      [Item.strVal (("x").data), Item.callableObj 1, Item.pynone, Item.pynone]),
    aliasesDecl := none }

def env1 : Env := [(importKey (("utf_8").data), utf8Mod)]

def env2 : Env :=
  [(importKey (("utf_8").data), utf8Mod), (importKey (("u8").data), u8Mod)]

/-- State whose alias table maps `u8` to `utf_8`. -/
def stA : CodecState := { cache := [], aliases := [(("u8").data, ("utf_8").data)] }

def env3 : Env := [(importKey (("foo").data), nogetMod)]

def env7 : Env := [(importKey (("four").data), fourMod)]

def env7b : Env := [(importKey (("three").data), threeMod)]

def env7c : Env := [(importKey (("seven").data), sevenNoneMod)]

def env9 : Env := [(importKey (("bad").data), badMod)]

example :
    (search_function env1 st0 (("utf-8").data)).outcome = Outcome.entry (Entry.info 1) := by
  decide

example :
    (search_function env1 st0 (("nosuch").data)).outcome = Outcome.unknown := by
  decide

theorem dictGet_dictSet_self {α : Type} (d : List (List Char × α)) (k : List Char) (v : α) :
    dictGet (dictSet d k v) k = some v := by
  induction d with
  | nil => simp [dictGet, dictSet]
  | cons p rest ih =>
    obtain ⟨k', w⟩ := p
    by_cases h : k' = k
    · simp [dictGet, dictSet, h]
    · simp [dictGet, dictSet, h, ih]

theorem importLoop_imports_valid (env : Env) (ms : List (List Char)) :
    ∀ m ∈ (importLoop env ms).2, m.isEmpty = false ∧ m.contains '.' = false := by
  induction ms with
  | nil => intro m hm; simp [importLoop] at hm
  | cons modname rest ih =>
    intro m hm
    by_cases hskip : (modname.isEmpty || modname.contains '.') = true
    · rw [importLoop] at hm
      simp only [hskip, if_true] at hm
      exact ih m hm
    · obtain ⟨h1, h2⟩ : modname.isEmpty = false ∧ modname.contains '.' = false := by
        constructor
        · cases hx : modname.isEmpty
          · rfl
          · exact absurd (by rw [hx]; rfl) hskip
        · cases hx : modname.contains '.'
          · rfl
          · exact absurd (by rw [hx]; exact Bool.or_true _) hskip
      cases hload : dictGet env (importKey modname) with
      | none =>
        rw [importLoop] at hm
        simp only [hskip, if_false, Bool.false_eq_true, hload] at hm
        rcases List.mem_cons.mp hm with hm | hm
        · subst hm; exact ⟨h1, h2⟩
        · exact ih m hm
      | some mod =>
        rw [importLoop] at hm
        simp only [hskip, if_false, Bool.false_eq_true, hload] at hm
        rcases List.mem_singleton.mp hm with hm
        subst hm; exact ⟨h1, h2⟩

theorem importLoop_found_mem (env : Env) (ms : List (List Char)) :
    ∀ (mod : Module) (modname : List Char) (tr : List (List Char)),
      importLoop env ms = (some (mod, modname), tr) → modname ∈ tr := by
  induction ms with
  | nil => intro mod modname tr h; simp [importLoop] at h
  | cons m rest ih =>
    intro mod modname tr h
    by_cases hskip : (m.isEmpty || m.contains '.') = true
    · rw [importLoop] at h
      simp only [hskip, if_true] at h
      exact ih mod modname tr h
    · cases hload : dictGet env (importKey m) with
      | none =>
        rw [importLoop] at h
        simp only [hskip, if_false, Bool.false_eq_true, hload] at h
        obtain ⟨h1, h2⟩ := Prod.mk.injEq .. ▸ h
        rcases hrec : importLoop env rest with ⟨fnd, tr'⟩
        rw [hrec] at h1 h2
        subst h2
        exact List.mem_cons_of_mem m (ih mod modname tr' (by rw [hrec, ← h1]))
      | some mod' =>
        rw [importLoop] at h
        simp only [hskip, if_false, Bool.false_eq_true, hload] at h
        obtain ⟨hmm, htr⟩ : (some (mod', m) = some (mod, modname)) ∧ [m] = tr := by
          exact ⟨congrArg Prod.fst h, congrArg Prod.snd h⟩
        obtain ⟨hmod, hname⟩ : mod' = mod ∧ m = modname := by
          injection hmm with hx
          exact ⟨congrArg Prod.fst hx, congrArg Prod.snd hx⟩
        subst hname
        rw [← htr]
        exact List.mem_singleton_self m

/-- C1 counterexample: the cache is keyed by the raw requested name, not the
normalized one.  `"utf-8"` and `"utf 8"` normalize identically, yet resolving
the first and then the second performs a module import both times (and the
second resolution is not served from the cache). -/
theorem cache_keyed_raw_counterexample :
    normalize_encoding (("utf-8").data) = normalize_encoding (("utf 8").data) ∧
      (search_function env1 st0 (("utf-8").data)).imports = [("utf_8").data] ∧
      (search_function env1 (search_function env1 st0 (("utf-8").data)).state
          (("utf 8").data)).imports = [("utf_8").data] := by
  decide

/-- C1 (amended): the cache lookup and write are keyed by the raw requested
name.  For one and the same requested name, whenever the first resolution did
not raise (it returned an entry or the unknown result, both of which are
cached; raising covers both `CodecRegistryError` and the constructor
`TypeError`), the second resolution returns exactly the same outcome from the
cache, with no module import and no further state change. -/
theorem search_function_caches_per_requested_name (env : Env) (st : CodecState)
    (encoding : List Char)
    (h : (search_function env st encoding).outcome.raised = false) :
    search_function env (search_function env st encoding).state encoding
      = { outcome := (search_function env st encoding).outcome,
          state := (search_function env st encoding).state, imports := [] } := by
  cases hcg : dictGet st.cache encoding with
  | some v => cases v <;> simp [search_function, hcg]
  | none =>
    have hres : search_function env st encoding = resolveMiss env st encoding := by
      simp [search_function, hcg]
    rw [hres] at h ⊢
    rcases hil : importLoop env (modnamesFor st.aliases (normalize_encoding encoding))
      with ⟨fnd, tr⟩
    cases fnd with
    | none =>
      simp [resolveMiss, hil, cacheUnknown, search_function, dictGet_dictSet_self]
    | some mm =>
      obtain ⟨mod, modname⟩ := mm
      cases hre : mod.regentry with
      | none =>
        simp [resolveMiss, hil, hre, cacheUnknown, search_function, dictGet_dictSet_self]
      | some re =>
        cases re with
        | codecInfo i =>
          simp [resolveMiss, hil, hre, finishSuccess, search_function, dictGet_dictSet_self]
        | tuple items =>
          by_cases hlen : 4 ≤ items.length ∧ items.length ≤ 7
          · by_cases hbad : badShape items = true
            · rw [show resolveMiss env st encoding
                  = { outcome := Outcome.registryError (incompatibleMsg mod), state := st,
                      imports := tr } by
                simp [resolveMiss, hil, hre, validateTuple, hlen, hbad]] at h
              exact absurd h (by simp [Outcome.raised])
            · by_cases hpl : 7 < (paddedItems mod items).length
              · rw [show resolveMiss env st encoding
                    = { outcome := Outcome.typeError, state := st, imports := tr } by
                  simp [resolveMiss, hil, hre, validateTuple, hlen, hbad, hpl]] at h
                exact absurd h (by simp [Outcome.raised])
              · simp [resolveMiss, hil, hre, validateTuple, hlen, hbad, hpl, finishSuccess,
                  search_function, dictGet_dictSet_self]
          · rw [show resolveMiss env st encoding
                = { outcome := Outcome.registryError (failToRegisterMsg mod), state := st,
                    imports := tr } by
              simp [resolveMiss, hil, hre, validateTuple, hlen]] at h
            exact absurd h (by simp [Outcome.raised])

/-- Witness for C1 (amended): an unknown name is resolved twice; the second
call is a pure cache hit. -/
theorem search_function_caches_per_requested_name_witness :
    ((search_function env1 st0 (("nosuch").data)).outcome.raised = false) ∧
      search_function env1 (search_function env1 st0 (("nosuch").data)).state
          (("nosuch").data)
        = { outcome := (search_function env1 st0 (("nosuch").data)).outcome,
            state := (search_function env1 st0 (("nosuch").data)).state, imports := [] } :=
  ⟨by decide,
    search_function_caches_per_requested_name env1 st0 (("nosuch").data) (by decide)⟩

/-- C2 counterexample: with the alias `u8 -> utf_8` registered, the candidate
list for `"u8"` is `[utf_8, u8]` — the alias target first, not the normalized
name first — and resolution indeed imports and returns the alias target's
codec, never trying the normalized name. -/
theorem candidates_alias_first_counterexample :
    modnamesFor stA.aliases (normalize_encoding (("u8").data))
        ≠ [normalize_encoding (("u8").data), ("utf_8").data] ∧
      modnamesFor stA.aliases (normalize_encoding (("u8").data))
        = [("utf_8").data, ("u8").data] ∧
      (search_function env2 stA (("u8").data)).imports = [("utf_8").data] ∧
      (search_function env2 stA (("u8").data)).outcome = Outcome.entry (Entry.info 1) := by
  decide

/-- C2 (amended): the candidate list is `[alias target, normalized name]` —
the alias target is tried FIRST — with no deduplication; without an alias it
is just `[normalized name]`; and the import loop skips (never passes to
`__import__`) every candidate that is empty or contains the package-path
separator. -/
theorem candidates_alias_first (aliases : List (List Char × List Char))
    (norm_encoding : List Char) (env : Env) :
    (∀ a, aliasedEncodingFor aliases norm_encoding = some a →
        modnamesFor aliases norm_encoding = [a, norm_encoding]) ∧
      (aliasedEncodingFor aliases norm_encoding = none →
        modnamesFor aliases norm_encoding = [norm_encoding]) ∧
      (∀ m ∈ (importLoop env (modnamesFor aliases norm_encoding)).2,
        m.isEmpty = false ∧ m.contains '.' = false) := by
  refine ⟨?_, ?_, ?_⟩
  · intro a ha; simp [modnamesFor, ha]
  · intro ha; simp [modnamesFor, ha]
  · exact importLoop_imports_valid env (modnamesFor aliases norm_encoding)

/-- Witness for C2 (amended): evaluated on the `u8 -> utf_8` alias table. -/
theorem candidates_alias_first_witness :
    modnamesFor stA.aliases (("u8").data) = [("utf_8").data, ("u8").data] :=
  (candidates_alias_first stA.aliases (("u8").data) env2).1 (("utf_8").data) (by decide)

/-- C3 counterexample: a module that loads but has no `getregentry` attribute
is treated exactly like "not found": the outcome is the unknown result (no
`CodecRegistryError`), the negative sentinel IS cached under the requested
name, and a second resolution is served from the cache with no new import. -/
theorem missing_getregentry_counterexample :
    (search_function env3 st0 (("foo").data)).outcome = Outcome.unknown ∧
      (search_function env3 st0 (("foo").data)).outcome.isRegistryError = false ∧
      dictGet (search_function env3 st0 (("foo").data)).state.cache (("foo").data)
        = some none ∧
      (search_function env3 (search_function env3 st0 (("foo").data)).state
          (("foo").data)).imports = [] := by
  decide

/-- C3 (amended): when the winning candidate module has no `getregentry`
attribute, `search_function` caches the negative sentinel under the requested
name and returns the unknown result; a subsequent resolution of the same name
is answered from the cache without re-attempting the module load. -/
theorem missing_getregentry_cached_unknown (env : Env) (st : CodecState)
    (encoding : List Char) (mod : Module) (modname : List Char) (tr : List (List Char))
    (hc : dictGet st.cache encoding = none)
    (hil : importLoop env (modnamesFor st.aliases (normalize_encoding encoding))
      = (some (mod, modname), tr))
    (hre : mod.regentry = none) :
    search_function env st encoding
        = { outcome := Outcome.unknown,
            state := { st with cache := dictSet st.cache encoding none },
            imports := tr } ∧
      search_function env { st with cache := dictSet st.cache encoding none } encoding
        = { outcome := Outcome.unknown,
            state := { st with cache := dictSet st.cache encoding none },
            imports := [] } := by
  constructor
  · simp [search_function, hc, resolveMiss, hil, hre, cacheUnknown]
  · simp [search_function, dictGet_dictSet_self]

/-- Witness for C3 (amended): evaluated on the module `foo` that lacks
`getregentry`. -/
theorem missing_getregentry_cached_unknown_witness :
    search_function env3 st0 (("foo").data)
        = { outcome := Outcome.unknown,
            state := { st0 with cache := dictSet st0.cache (("foo").data) none },
            imports := [("foo").data] } ∧
      search_function env3 { st0 with cache := dictSet st0.cache (("foo").data) none }
          (("foo").data)
        = { outcome := Outcome.unknown,
            state := { st0 with cache := dictSet st0.cache (("foo").data) none },
            imports := [] } :=
  missing_getregentry_cached_unknown env3 st0 (("foo").data) nogetMod (("foo").data)
    [("foo").data] (by decide) (by decide) (by decide)

/-- C4 counterexample: with the active code page 1252, the fallback returns
nothing for the literal request `"mbcs"` and returns the mbcs codec entry for
the request `"cp1252"` — the reverse of the claimed trigger condition. -/
theorem alias_mbcs_counterexample :
    _alias_mbcs (some 1252) (some (Entry.info 7)) (("mbcs").data) = none ∧
      _alias_mbcs (some 1252) (some (Entry.info 7)) (("cp1252").data)
        = some (Entry.info 7) := by
  decide

/-- C4 (amended): the win32 fallback resolver fires only when the requested
name equals `"cp%s" % GetACP()` (the name of the OS's active code page), in
which case it returns the mbcs codec's registry entry; the literal name
`"mbcs"` never matches (the comparison string always starts with `"cp"`), so
requesting `"mbcs"` yields no result from this fallback. -/
theorem alias_mbcs_fires_on_acp_name (winapi : Option Nat) (m : Option Entry) :
    _alias_mbcs winapi m (("mbcs").data) = none ∧
      (∀ acp, _alias_mbcs (some acp) m (("cp").data ++ (toString acp).data) = m) := by
  constructor
  · cases winapi with
    | none => rfl
    | some acp =>
      have hne : ("mbcs").data ≠ ("cp").data ++ (toString acp).data := by
        intro h
        have h2 : 'm' = 'c' := List.head_eq_of_cons_eq h
        exact absurd h2 (by decide)
      simp [_alias_mbcs, hne]
  · intro acp
    simp [_alias_mbcs]

/-- C7 counterexample: a four-member tuple of valid shape is accepted — no
error is raised; it is padded to seven members (four given, two `None`
placeholders, then the module-derived codec name) and cached — refuting the
claim that any member count other than six fails validation. -/
theorem four_member_tuple_accepted :
    (search_function env7 st0 (("four").data)).outcome
        = Outcome.entry (Entry.built
            [Item.callableObj 1, Item.callableObj 2, Item.pynone, Item.pynone,
             Item.pynone, Item.pynone, Item.strVal (("four").data)]) ∧
      (search_function env7 st0 (("four").data)).outcome.isRegistryError = false := by
  decide

/-- C7 (amended): the registry tuple's member count must lie between 4 and 7
inclusive; a count outside that range raises the `failed to register`
`CodecRegistryError` naming the module, with nothing cached.  Within range
and of valid shape, a tuple of 4..6 members is right-padded with `None`
placeholders plus the module-derived codec name to exactly 7 members and
resolution succeeds; a 7-member tuple whose 7th member is not `None` succeeds
unchanged; but a 7-member tuple whose 7th member is `None` still gets the
name appended (the `(None,)*(6-len)` arithmetic is empty), yielding 8
members, and `codecs.CodecInfo(*entry)` then raises `TypeError` with nothing
cached. -/
theorem tuple_length_validation (env : Env) (st : CodecState) (encoding : List Char)
    (mod : Module) (modname : List Char) (tr : List (List Char)) (items : List Item)
    (hc : dictGet st.cache encoding = none)
    (hil : importLoop env (modnamesFor st.aliases (normalize_encoding encoding))
      = (some (mod, modname), tr))
    (hre : mod.regentry = some (RegEntry.tuple items)) :
    (¬(4 ≤ items.length ∧ items.length ≤ 7) →
        search_function env st encoding
          = { outcome := Outcome.registryError (failToRegisterMsg mod), state := st,
              imports := tr }) ∧
      (4 ≤ items.length → items.length < 7 → badShape items = false →
        (paddedItems mod items).length = 7 ∧
          (search_function env st encoding).outcome
            = Outcome.entry (Entry.built (paddedItems mod items))) ∧
      (items.length = 7 → itemAt items 6 ≠ Item.pynone → badShape items = false →
        (search_function env st encoding).outcome = Outcome.entry (Entry.built items)) ∧
      (items.length = 7 → itemAt items 6 = Item.pynone → badShape items = false →
        search_function env st encoding
          = { outcome := Outcome.typeError, state := st, imports := tr }) := by
  refine ⟨?_, ?_, ?_, ?_⟩
  · intro hlen
    simp [search_function, hc, resolveMiss, hil, hre, validateTuple, hlen]
  · intro h4 h7 hshape
    have hpad : paddedItems mod items
        = items ++ List.replicate (6 - items.length) Item.pynone ++
            [Item.strVal (splitAfterFirstDot mod.name)] := by
      simp [paddedItems, h7]
    have hlen7 : (paddedItems mod items).length = 7 := by
      rw [hpad]
      simp only [List.length_append, List.length_replicate, List.length_singleton]
      omega
    have hlen : 4 ≤ items.length ∧ items.length ≤ 7 := ⟨h4, by omega⟩
    have hnot : ¬(7 < (paddedItems mod items).length) := by
      rw [hlen7]; omega
    refine ⟨hlen7, ?_⟩
    simp [search_function, hc, resolveMiss, hil, hre, validateTuple, hlen, hshape, hnot,
      finishSuccess]
  · intro h7 h6 hshape
    have hcond : ¬(items.length < 7 ∨ itemAt items 6 = Item.pynone) := by
      intro hor
      rcases hor with hor | hor
      · omega
      · exact h6 hor
    have hpad : paddedItems mod items = items := by
      simp [paddedItems, hcond]
    have hlen : 4 ≤ items.length ∧ items.length ≤ 7 := by omega
    have hnot : ¬(7 < (paddedItems mod items).length) := by
      rw [hpad]; omega
    simp [search_function, hc, resolveMiss, hil, hre, validateTuple, hlen, hshape, hnot,
      finishSuccess, hpad, h7]
  · intro h7 h6 hshape
    have hpad : paddedItems mod items
        = items ++ List.replicate (6 - items.length) Item.pynone ++
            [Item.strVal (splitAfterFirstDot mod.name)] := by
      simp [paddedItems, h6]
    have hgt : 7 < (paddedItems mod items).length := by
      rw [hpad]
      simp only [List.length_append, List.length_replicate, List.length_singleton]
      omega
    have hlen : 4 ≤ items.length ∧ items.length ≤ 7 := by omega
    simp [search_function, hc, resolveMiss, hil, hre, validateTuple, hlen, hshape, hgt]

/-- Witness for C7 (amended): the well-shaped seven-member tuple of module
`seven`, whose seventh member is `None`, makes resolution raise the
constructor `TypeError` with nothing cached. -/
theorem tuple_length_validation_witness :
    search_function env7c st0 (("seven").data)
      = { outcome := Outcome.typeError, state := st0, imports := [("seven").data] } :=
  (tuple_length_validation env7c st0 (("seven").data) sevenNoneMod (("seven").data)
      [("seven").data]
      [Item.callableObj 1, Item.callableObj 2, Item.pynone, Item.pynone,
       Item.pynone, Item.pynone, Item.pynone]
      (by decide) (by decide) (by decide)).2.2.2 (by decide) (by decide) (by decide)

/-- C9: a tuple registry entry of legal length whose first member is not
callable makes `search_function` raise the `incompatible codecs`
`CodecRegistryError`; the state is unchanged (nothing is cached for the
requested name), the module load did happen (the winning candidate is among
the attempted imports), and a subsequent resolution of the same name runs
the import loop again, re-attempting the module load. -/
theorem noncallable_first_member_not_cached (env : Env) (st : CodecState)
    (encoding : List Char) (mod : Module) (modname : List Char) (tr : List (List Char))
    (items : List Item)
    (hc : dictGet st.cache encoding = none)
    (hil : importLoop env (modnamesFor st.aliases (normalize_encoding encoding))
      = (some (mod, modname), tr))
    (hre : mod.regentry = some (RegEntry.tuple items))
    (hlen : 4 ≤ items.length ∧ items.length ≤ 7)
    (hcall : (itemAt items 0).isCallable = false) :
    search_function env st encoding
        = { outcome := Outcome.registryError (incompatibleMsg mod), state := st,
            imports := tr } ∧
      modname ∈ tr ∧
      (search_function env (search_function env st encoding).state encoding).imports
        = tr := by
  have hbs : badShape items = true := by
    simp [badShape, hcall]
  have h1 : search_function env st encoding
      = { outcome := Outcome.registryError (incompatibleMsg mod), state := st,
          imports := tr } := by
    simp [search_function, hc, resolveMiss, hil, hre, validateTuple, hlen, hbs]
  refine ⟨h1, importLoop_found_mem env _ mod modname tr hil, ?_⟩
  simp [h1]

/-- Witness for C9: evaluated on the module `bad` whose registry tuple starts
with a string. -/
theorem noncallable_first_member_not_cached_witness :
    search_function env9 st0 (("bad").data)
        = { outcome := Outcome.registryError (incompatibleMsg badMod), state := st0,
            imports := [("bad").data] } ∧
      (("bad").data) ∈ [("bad").data] ∧
      (search_function env9 (search_function env9 st0 (("bad").data)).state
          (("bad").data)).imports = [("bad").data] :=
  noncallable_first_member_not_cached env9 st0 (("bad").data) badMod (("bad").data)
    [("bad").data]
    [Item.strVal (("x").data), Item.callableObj 1, Item.pynone, Item.pynone]
    (by decide) (by decide) (by decide) (by decide) (by decide)

end Encodings
